import Mathlib

/-!
# Verification of the MapView viewport renderer (src/src/client/mapview.cpp)

A shallow embedding of the visibility-caching, floor-compositing, camera and
shader-fade logic of MapView, together with proofs of the frozen claims.

Modelling conventions:
* The world grid, tiles and the render backend are external collaborators
  (spec sections 2 and 6); they enter as parameters (`WorldGrid`, `Tile`
  capability records, the backend maximum texture size).
* Machine integers are modelled as `Int`/`Nat`.  The C++ code keeps camera
  coordinates in `uint16`/`uint8`; all quantities proved about stay far from
  the wrap-around points, which are noted where relevant.
* Timers and opacities (C++ `float`) are modelled over `Rat`; the fade logic
  only ever compares and linearly interpolates, so the ramp structure is
  preserved exactly.
* Side effects that touch no modelled state (logging, draw-pool submission,
  light-view painting, the mouse-highlight bookkeeping inside
  `updateVisibleTilesCache`) are either dropped or reified in the result
  (`GeoLog` for the error log, `DrawPasses` for the per-frame pass list).
-/

set_option autoImplicit false

/-! ## Constants (Otc namespace, from const.h)

Modelled from the spec: const.h is outside the provided sources.  The spec
fixes floors to the range `[0, MAX_Z]`, names a sea-floor constant, an
underground floor constant and an underground aware range, and a base tile
pixel size; the values below are the project's standard ones
(`UNDERGROUND_FLOOR = SEA_FLOOR + 1`). -/

namespace Otc

def MAX_Z : Nat := 15
def SEA_FLOOR : Nat := 7
def UNDERGROUND_FLOOR : Nat := 8
def AWARE_UNDEGROUND_FLOOR_RANGE : Nat := 2
def TILE_PIXELS : Nat := 32

end Otc

/-- View-area thresholds from the anonymous enum at the top of mapview.cpp. -/
def NEAR_VIEW_AREA : Nat := 32 * 32

def MID_VIEW_AREA : Nat := 64 * 64

def FAR_VIEW_AREA : Nat := 128 * 128

/-! ## Position -/

/-- World grid position.  Modelled from the spec: `Position` (position.h) is an
integer `(x, y, z)` world coordinate with `z` a floor index bounded
`[0, MAX_Z]`; a reserved default-constructed sentinel is invalid. -/
structure Position where
  x : Int
  y : Int
  z : Int
deriving DecidableEq, Repr

namespace Position

/-- The default-constructed `Position()` sentinel (all coordinates at their
unsigned maxima), used by `followCreature` to reset the camera cache. -/
def sentinel : Position := ⟨65535, 65535, 255⟩

/-- Modelled from the spec: a position is valid when its coordinates are in
range for the world grid, in particular `z ∈ [0, MAX_Z]`. -/
def isValid (p : Position) : Bool :=
  0 ≤ p.x && p.x < 65535 && 0 ≤ p.y && p.y < 65535 && 0 ≤ p.z && p.z ≤ (Otc.MAX_Z : Int)

/-- `Position::translated(dx, dy)`: shift within the current floor. -/
def translated (p : Position) (dx dy : Int) : Position := ⟨p.x + dx, p.y + dy, p.z⟩

/-- Modelled from the spec: one "covering" step `Position::coveredUp()` moves a
position one floor up shifting diagonally; it fails (returning `none`, no
mutation) when the target coordinates leave the grid. -/
def coveredUp1 (p : Position) : Option Position :=
  if 0 ≤ p.x - 1 && 0 ≤ p.y - 1 && 0 ≤ p.z - 1 && p.z - 1 ≤ (Otc.MAX_Z : Int) then
    some ⟨p.x - 1, p.y - 1, p.z - 1⟩
  else none

/-- Modelled from the spec: `Position::up()` decrements the floor index,
failing (no mutation) outside `[0, MAX_Z]`. -/
def up1 (p : Position) : Option Position :=
  if 0 ≤ p.z - 1 && p.z - 1 ≤ (Otc.MAX_Z : Int) then some ⟨p.x, p.y, p.z - 1⟩ else none

/-- Modelled from the spec: the n-step `Position::coveredUp(n)` used by the
visibility sweep; the bounds check is all-or-nothing and the caller ignores
the returned flag, so a failed covering leaves the position unchanged. -/
def coveredUpN (p : Position) (n : Int) : Position :=
  if 0 ≤ p.x - n && 0 ≤ p.y - n && 0 ≤ p.z - n && p.z - n ≤ (Otc.MAX_Z : Int) then
    ⟨p.x - n, p.y - n, p.z - n⟩
  else p

/-- Modelled from the spec: `Position::isInRange` with four half-extents
(left/right/top/bottom ranges in tiles) and a same-floor requirement. -/
def isInRangeEx (camera pos : Position) (minX maxX minY maxY : Int) : Bool :=
  camera.x - minX ≤ pos.x && pos.x ≤ camera.x + maxX &&
  camera.y - minY ≤ pos.y && pos.y ≤ camera.y + maxY && pos.z == camera.z

end Position

/-! ## External collaborators: tiles and the world grid -/

/-- Tile capability record (spec section 6): the subset of the `Tile`
interface consulted by MapView's visibility pass.  Creatures are identified
by numeric ids, listed in stacking order (bottom first, as returned by
`Tile::getCreatures`). -/
structure Tile where
  isDrawable : Bool
  hasGround : Bool
  hasGroundBorderToDraw : Bool
  hasBottomOrTopToDraw : Bool
  hasLight : Bool
  getCreatures : List Nat
  isCompletelyCovered : Nat → Bool
  limitsFloorsView : Bool → Bool

/-- The read-only world grid interface (`g_map` as consumed by MapView). -/
structure WorldGrid where
  getTile : Position → Option Tile
  isLookPossible : Position → Bool

/-! ## Geometry data -/

structure Size where
  w : Nat
  h : Nat
deriving DecidableEq, Repr

def Size.area (s : Size) : Nat := s.w * s.h

/-- Modelled from the spec: framework `Size` comparison used by
`setVisibleDimension`'s minimum-dimension check — a size is smaller than
another when either extent is smaller. -/
def Size.ltDim (a b : Size) : Bool := a.w < b.w || a.h < b.h

inductive ViewMode where
  | NEAR_VIEW
  | MID_VIEW
  | FAR_VIEW
  | HUGE_VIEW
deriving DecidableEq, Repr

/-- The enum's underlying integral value, for the `viewMode < FAR_VIEW` test. -/
def ViewMode.toNat : ViewMode → Nat
  | .NEAR_VIEW => 0
  | .MID_VIEW => 1
  | .FAR_VIEW => 2
  | .HUGE_VIEW => 3

/-- Aware-range half extents (uint16 fields; arithmetic on them is
int-promoted in C++, hence `Int` here). -/
structure AwareRange where
  left : Int
  right : Int
  top : Int
  bottom : Int
deriving DecidableEq, Repr

/-- Per-floor visibility buckets, populated in draw order. -/
structure VisibleFloor where
  grounds : List Tile
  borders : List Tile
  bottomTops : List Tile

def VisibleFloor.empty : VisibleFloor := ⟨[], [], []⟩

/-- Result of the error log reified: which `g_logger.traceError` fired. -/
inductive GeoLog where
  | ok
  | oddDimensionError
  | maxZoomInError
  | maxZoomOutError
deriving DecidableEq, Repr

/-! ## MapView state -/

/-- The MapView fields involved in the claims (member names follow the C++
fields without the `m_` prefixes). -/
structure MapViewState where
  follow : Bool
  followingCreaturePos : Option Position
  customCameraPosition : Position
  lastCameraPosition : Position
  lockedFirstVisibleFloor : Nat
  multifloor : Bool
  autoViewMode : Bool
  viewMode : ViewMode
  renderScale : Nat
  visibleDimension : Size
  drawDimension : Size
  tileSize : Nat
  virtualCenterOffset : Int × Int
  visibleCenterOffset : Int × Int
  optimizedSize : Size
  awareRange : AwareRange
  moveOffset : Int × Int
  mustUpdateVisibleTilesCache : Bool
  mustUpdateVisibleCreaturesCache : Bool
  cachedFirstVisibleFloor : Nat
  cachedLastVisibleFloor : Nat
  floorMin : Nat
  floorMax : Nat
  cachedVisibleTiles : Nat → VisibleFloor
  visibleCreatures : List Nat
  drawLights : Bool

namespace MapView

/-- `MapView::getCameraPosition`: the followed creature's live position while
following (`isFollowingCreature()` requires both the flag and a creature),
else the fixed position. -/
def getCameraPosition (s : MapViewState) : Position :=
  if s.follow then
    match s.followingCreaturePos with
    | some p => p
    | none => s.customCameraPosition
  else s.customCameraPosition

/-- `MapView::followCreature`: enter follow mode; the cached last camera
position is reset to the invalid `Position()` sentinel. -/
def followCreature (s : MapViewState) (creaturePos : Position) : MapViewState :=
  { s with follow := true
           followingCreaturePos := some creaturePos
           lastCameraPosition := Position.sentinel
           mustUpdateVisibleTilesCache := true }

/-- `MapView::setCameraPosition`: enter fixed-camera mode and request a cache
update (the last-camera-position field is left as it was). -/
def setCameraPosition (s : MapViewState) (pos : Position) : MapViewState :=
  { s with follow := false
           customCameraPosition := pos
           mustUpdateVisibleTilesCache := true }

/-- `MapView::lockFirstVisibleFloor`. -/
def lockFirstVisibleFloor (s : MapViewState) (firstVisibleFloor : Nat) : MapViewState :=
  { s with lockedFirstVisibleFloor := firstVisibleFloor
           mustUpdateVisibleTilesCache := true }

/-- `MapView::unlockFirstVisibleFloor` (the `UINT8_MAX` sentinel). -/
def unlockFirstVisibleFloor (s : MapViewState) : MapViewState :=
  { s with lockedFirstVisibleFloor := 255
           mustUpdateVisibleTilesCache := true }

/-- `MapView::move`: accumulate a sub-tile pixel offset; each axis commits the
whole-tile part (C++ `int` division and remainder truncate toward zero, i.e.
`Int.tdiv`/`Int.tmod`) to the fixed camera position and keeps the remainder.
A committed shift requests a visibility cache update. -/
def move (s : MapViewState) (x y : Int) : MapViewState :=
  let moveX := s.moveOffset.1 + x
  let moveY := s.moveOffset.2 + y
  let tmpX := Int.tdiv moveX (Otc.TILE_PIXELS : Int)
  let camX := if tmpX ≠ 0 then s.customCameraPosition.x + tmpX else s.customCameraPosition.x
  let moveX := if tmpX ≠ 0 then Int.tmod moveX (Otc.TILE_PIXELS : Int) else moveX
  let tmpY := Int.tdiv moveY (Otc.TILE_PIXELS : Int)
  let camY := if tmpY ≠ 0 then s.customCameraPosition.y + tmpY else s.customCameraPosition.y
  let moveY := if tmpY ≠ 0 then Int.tmod moveY (Otc.TILE_PIXELS : Int) else moveY
  let requestTilesUpdate := tmpX ≠ 0 ∨ tmpY ≠ 0
  { s with moveOffset := (moveX, moveY)
           customCameraPosition := ⟨camX, camY, s.customCameraPosition.z⟩
           mustUpdateVisibleTilesCache :=
             s.mustUpdateVisibleTilesCache || decide requestTilesUpdate }

end MapView

/-! ## Shader fade controller

The MapView fields `m_shader`, `m_nextShader`, `m_shaderSwitchDone`,
`m_fadeInTime`, `m_fadeOutTime` and `m_fadeTimer`, mutated by
`MapView::setShader` and by the map pool's `onBeforeDraw` closure from the
constructor.  Shaders are identified by numeric ids (`none` = null pointer);
times and opacities are `Rat` (see the header comment).  The timer is kept as
the absolute time of its last restart, so `timeElapsed() = now - start`. -/

structure FadeState where
  shader : Option Nat
  nextShader : Option Nat
  shaderSwitchDone : Bool
  fadeInTime : Rat
  fadeOutTime : Rat
  fadeTimerStart : Rat

namespace MapView

/-- `MapView::setShader` (the `shader->setPosition` call touches only the
shader object and is dropped). -/
def setShader (s : FadeState) (now : Rat) (shader : Option Nat) (fadein fadeout : Rat) :
    FadeState :=
  if s.shader = shader then s
  else
    let s :=
      if fadeout > 0 ∧ s.shader ≠ none then
        { s with nextShader := shader, shaderSwitchDone := false }
      else
        { s with shader := shader, nextShader := none, shaderSwitchDone := true }
    { s with fadeTimerStart := now, fadeInTime := fadein, fadeOutTime := fadeout }

/-- The fade part of the map pool's `onBeforeDraw` closure: returns the state
after the frame at absolute time `now` together with the opacity handed to
`g_painter->setOpacity` (the shader-uniform block mutates only backend
state). -/
def onBeforeDrawFade (s : FadeState) (now : Rat) : FadeState × Rat :=
  let p :=
    if ¬ s.shaderSwitchDone ∧ s.fadeOutTime > 0 then
      let fo := 1 - (now - s.fadeTimerStart) / s.fadeOutTime
      if fo < 0 then
        ({ s with shader := s.nextShader, nextShader := none, shaderSwitchDone := true,
                  fadeTimerStart := now }, fo)
      else (s, fo)
    else (s, 1)
  let s := p.1
  let fadeOpacity :=
    if s.shaderSwitchDone ∧ s.shader ≠ none ∧ s.fadeInTime > 0 then
      min ((now - s.fadeTimerStart) / s.fadeInTime) 1
    else p.2
  (s, fadeOpacity)

end MapView

/-! ## Geometry update -/

namespace MapView

/-- The auto view mode selection inside `MapView::updateGeometry`. -/
def selectViewMode (tileSize : Nat) (area : Nat) : ViewMode :=
  if tileSize ≥ Otc.TILE_PIXELS ∧ area ≤ NEAR_VIEW_AREA then .NEAR_VIEW
  else if tileSize ≥ 16 ∧ area ≤ MID_VIEW_AREA then .MID_VIEW
  else if tileSize ≥ 8 ∧ area ≤ FAR_VIEW_AREA then .FAR_VIEW
  else .HUGE_VIEW

/-- `MapView::updateGeometry`.  External inputs: the backend's maximum texture
size and the map's aware range extents (`g_map.getAwareRange()`).  The
`uint8` tile size `TILE_PIXELS * (renderScale / 100.f)` truncates to
`32 * renderScale / 100` (for `renderScale ≤ 255` the float product is never
within rounding error of an integer it is not equal to, and stays below 256).
The framebuffer resize, scale factor, rect-dimension and viewport-direction
caches touch no modelled field. -/
def updateGeometry (maxTextureSize : Nat) (mapAwareLeft mapAwareTop : Int)
    (s : MapViewState) (visibleDimension optimizedSize : Size) : MapViewState × GeoLog :=
  let tileSize := Otc.TILE_PIXELS * s.renderScale / 100
  let drawDimension : Size := ⟨visibleDimension.w + 3, visibleDimension.h + 3⟩
  let bufferW := drawDimension.w * tileSize
  let bufferH := drawDimension.h * tileSize
  if bufferW > maxTextureSize ∨ bufferH > maxTextureSize then
    (s, GeoLog.maxZoomOutError)
  else
    let virtualCenterOffset : Int × Int :=
      ((drawDimension.w : Int) / 2 - 1, (drawDimension.h : Int) / 2 - 1)
    let visibleCenterOffset := virtualCenterOffset
    let viewMode :=
      if s.autoViewMode then selectViewMode tileSize visibleDimension.area else s.viewMode
    let multifloor :=
      if s.autoViewMode then decide (viewMode.toNat < ViewMode.FAR_VIEW.toNat) else s.multifloor
    let awLeft := min mapAwareLeft ((drawDimension.w : Int) / 2 - 1)
    let awTop := min mapAwareTop ((drawDimension.h : Int) / 2 - 1)
    ({ s with viewMode := viewMode
              multifloor := multifloor
              visibleDimension := visibleDimension
              drawDimension := drawDimension
              tileSize := tileSize
              virtualCenterOffset := virtualCenterOffset
              visibleCenterOffset := visibleCenterOffset
              optimizedSize := optimizedSize
              awareRange := ⟨awLeft, awLeft + 1, awTop, awTop + 1⟩
              mustUpdateVisibleTilesCache := true }, GeoLog.ok)

/-- `MapView::setVisibleDimension`: validates parity and minimum size before
delegating to `updateGeometry`. -/
def setVisibleDimension (maxTextureSize : Nat) (mapAwareLeft mapAwareTop : Int)
    (s : MapViewState) (visibleDimension : Size) : MapViewState × GeoLog :=
  if visibleDimension = s.visibleDimension then (s, GeoLog.ok)
  else if visibleDimension.w % 2 ≠ 1 ∨ visibleDimension.h % 2 ≠ 1 then
    (s, GeoLog.oddDimensionError)
  else if Size.ltDim visibleDimension ⟨3, 3⟩ then (s, GeoLog.maxZoomInError)
  else updateGeometry maxTextureSize mapAwareLeft mapAwareTop s visibleDimension s.optimizedSize

end MapView

/-! ## Visible floor range (`calcFirstVisibleFloor` / `calcLastVisibleFloor`) -/

namespace MapView

/-- `if(tile && tile->limitsFloorsView(flag))` on an optional tile. -/
def tileLimitsView (t : Option Tile) (flag : Bool) : Bool :=
  match t with
  | some tile => tile.limitsFloorsView flag
  | none => false

/-- The blocker-search loop of `calcFirstVisibleFloor` for one neighbor:
`while(coveredPos.coveredUp() && upperPos.up() && upperPos.z >= firstFloor)`.
The condition's side effects are modelled by the `Option` results; the body
either raises `firstFloor` just above the blocker and breaks, or continues.
`fuel` only needs to exceed the starting floor index, since `up1` fails once
the floor index would leave `[0, MAX_Z]`. -/
def limitLoop (g : WorldGrid) (look : Bool) :
    Nat → Position → Position → Int → Int
  | 0, _, _, firstFloor => firstFloor
  | fuel + 1, upperPos, coveredPos, firstFloor =>
    match coveredPos.coveredUp1 with
    | none => firstFloor
    | some coveredPos =>
      match upperPos.up1 with
      | none => firstFloor
      | some upperPos =>
        if upperPos.z < firstFloor then firstFloor
        else if tileLimitsView (g.getTile upperPos) (!look) then upperPos.z + 1
        else if tileLimitsView (g.getTile coveredPos) look then coveredPos.z + 1
        else limitLoop g look fuel upperPos coveredPos firstFloor

/-- One iteration of the 3×3 neighborhood scan of `calcFirstVisibleFloor`:
the center tile is always scanned; cardinal neighbors only when look-through
is possible there. -/
def scanNeighbor (g : WorldGrid) (cameraPosition : Position) (ix iy : Int)
    (firstFloor : Int) : Int :=
  let pos := cameraPosition.translated ix iy
  if (ix = 0 ∧ iy = 0) ∨ ((|ix| ≠ |iy|) ∧ g.isLookPossible pos = true) then
    limitLoop g (g.isLookPossible pos) (Otc.MAX_Z + 1) pos pos firstFloor
  else firstFloor

/-- The nine `(ix, iy)` pairs of the 3×3 scan, in C++ loop order (outer `ix`,
inner `iy`). -/
def scanOffsets : List (Int × Int) :=
  [(-1, -1), (-1, 0), (-1, 1), (0, -1), (0, 0), (0, 1), (1, -1), (1, 0), (1, 1)]

/-- The full 3×3 scan; both loop conditions re-check
`firstFloor < cameraPosition.z` before every iteration. -/
def scan3x3 (g : WorldGrid) (cameraPosition : Position) (firstFloor : Int) : Int :=
  scanOffsets.foldl
    (fun ff c =>
      if ff < cameraPosition.z then scanNeighbor g cameraPosition c.1 c.2 ff else ff)
    firstFloor

/-- `stdext::clamp<int>(z, 0, MAX_Z)` followed by the `uint8` return. -/
def clampZ (z : Int) : Nat := (max 0 (min z (Otc.MAX_Z : Int))).toNat

/-- `MapView::calcFirstVisibleFloor`. -/
def calcFirstVisibleFloor (g : WorldGrid) (s : MapViewState) : Nat :=
  let z : Int :=
    if s.lockedFirstVisibleFloor ≠ 255 then (s.lockedFirstVisibleFloor : Int)
    else
      let cameraPosition := getCameraPosition s
      if cameraPosition.isValid then
        if ¬ s.multifloor then cameraPosition.z
        else
          let firstFloor : Int :=
            if cameraPosition.z > (Otc.SEA_FLOOR : Int) then
              max (cameraPosition.z - (Otc.AWARE_UNDEGROUND_FLOOR_RANGE : Int))
                (Otc.UNDERGROUND_FLOOR : Int)
            else 0
          scan3x3 g cameraPosition firstFloor
      else (Otc.SEA_FLOOR : Int)
  clampZ z

/-- `MapView::calcLastVisibleFloor`. -/
def calcLastVisibleFloor (g : WorldGrid) (s : MapViewState) : Nat :=
  if ¬ s.multifloor then calcFirstVisibleFloor g s
  else
    let cameraPosition := getCameraPosition s
    let z : Int :=
      if cameraPosition.isValid then
        if cameraPosition.z > (Otc.SEA_FLOOR : Int) then
          cameraPosition.z + (Otc.AWARE_UNDEGROUND_FLOOR_RANGE : Int)
        else (Otc.SEA_FLOOR : Int)
      else (Otc.SEA_FLOOR : Int)
    let z : Int :=
      if s.lockedFirstVisibleFloor ≠ 255 then max (s.lockedFirstVisibleFloor : Int) z else z
    clampZ z

end MapView

/-! ## Visibility cache rebuild (`updateVisibleTilesCache`) -/

namespace MapView

/-- The cells `(ix, iy)` visited by one `/`-diagonal of the sweep.  In the
source, `advance = std::max<uint32>(diagonal - height, 0)` wraps modulo 2^32
whenever `diagonal < height`, and `max` then keeps the wrapped value, so in
either case the inner loop starts at `iy = height`, `ix = diagonal - height`
(the `int` conversions undo the wrap) and runs while `iy ≥ 0 && ix < width`
with `--iy, ++ix`; hence `min (height + 1) (width + height - diagonal)`
iterations along `ix + iy = diagonal` (cells with `ix < 0` included). -/
def diagCells (width height : Nat) (diagonal : Nat) : List (Int × Int) :=
  (List.range (min (height + 1) (width + height - diagonal))).map
    (fun k => ((diagonal : Int) - (height : Int) + k, (height : Int) - k))

/-- All sweep cells in visit order: `numDiagonals = width + height - 1`
diagonals from top-left to top-right. -/
def sweepCells (width height : Nat) : List (Int × Int) :=
  (List.range (width + height - 1)).flatMap (diagCells width height)

/-- The floors `lastVisibleFloor, …, firstVisibleFloor` in sweep order
(bottom floor first). -/
def floorsDesc (lastFloor firstFloor : Nat) : List Nat :=
  (List.range' firstFloor (lastFloor + 1 - firstFloor)).reverse

/-- The world position examined for sweep cell `(ix, iy)` on floor `iz`:
translation from the camera by the virtual center offset, then
`cameraPosition.z - iz` covering steps. -/
def sweepTilePos (cameraPosition : Position) (virtualCenterOffset : Int × Int)
    (c : Int × Int) (iz : Nat) : Position :=
  (cameraPosition.translated (c.1 - virtualCenterOffset.1) (c.2 - virtualCenterOffset.2)).coveredUpN
    (cameraPosition.z - (iz : Int))

/-- `MapView::isInRange` (with `ignoreZ = false`), as used by the creature
collection: the aware range shrunk by `(1, 2, 1, 2)`. -/
def isInRange (s : MapViewState) (pos : Position) : Bool :=
  Position.isInRangeEx (getCameraPosition s) pos (s.awareRange.left - 1)
    (s.awareRange.right - 2) (s.awareRange.top - 1) (s.awareRange.bottom - 2)

/-- The sweep's mutable accumulator: the per-floor buckets, the visible
creature list and the touched floor extent. -/
structure SweepAcc where
  tiles : Nat → VisibleFloor
  visibleCreatures : List Nat
  floorMin : Nat
  floorMax : Nat

/-- Append a tile to the buckets of floor `iz` it qualifies for
(`push_back` order). -/
def pushTile (acc : SweepAcc) (iz : Nat) (tile : Tile) : SweepAcc :=
  { acc with tiles := fun f =>
      if f = iz then
        let fl := acc.tiles iz
        let fl := if tile.hasGround then { fl with grounds := fl.grounds ++ [tile] } else fl
        let fl :=
          if tile.hasGroundBorderToDraw then { fl with borders := fl.borders ++ [tile] } else fl
        if tile.hasBottomOrTopToDraw then
          { fl with bottomTops := fl.bottomTops ++ [tile] }
        else fl
      else acc.tiles f }

/-- `if(iz < m_floorMin) m_floorMin = iz; else if(iz > m_floorMax) m_floorMax = iz;` -/
def touchFloor (acc : SweepAcc) (iz : Nat) : SweepAcc :=
  if iz < acc.floorMin then { acc with floorMin := iz }
  else if iz > acc.floorMax then { acc with floorMax := iz }
  else acc

/-- The body of the innermost sweep loop for one cell `c` on floor `iz`:
skip missing or non-drawable tiles; collect creatures of in-range tiles when
the creature cache is being refreshed (reverse stacking order); skip tiles
completely covered from the first visible floor that carry no light; bucket
the rest and extend the touched floor range. -/
def processCell (g : WorldGrid) (creatureRefresh : Bool) (s : MapViewState)
    (cameraPosition : Position) (firstVisibleFloor : Nat) (iz : Nat)
    (acc : SweepAcc) (c : Int × Int) : SweepAcc :=
  let tilePos := sweepTilePos cameraPosition s.virtualCenterOffset c iz
  match g.getTile tilePos with
  | none => acc
  | some tile =>
    if ¬ tile.isDrawable then acc
    else
      let acc :=
        if creatureRefresh ∧ isInRange s tilePos ∧ tile.getCreatures ≠ [] then
          { acc with visibleCreatures := acc.visibleCreatures ++ tile.getCreatures.reverse }
        else acc
      if tile.isCompletelyCovered firstVisibleFloor ∧ ¬ tile.hasLight then acc
      else touchFloor (pushTile acc iz tile) iz

/-- The two nested sweep loops: floors bottom-to-top, cells in diagonal
order. -/
def sweep (g : WorldGrid) (creatureRefresh : Bool) (s : MapViewState)
    (cameraPosition : Position) (firstVisibleFloor lastVisibleFloor : Nat)
    (acc : SweepAcc) : SweepAcc :=
  (floorsDesc lastVisibleFloor firstVisibleFloor).foldl
    (fun acc iz =>
      (sweepCells s.drawDimension.w s.drawDimension.h).foldl
        (processCell g creatureRefresh s cameraPosition firstVisibleFloor iz) acc)
    acc

/-- The body of `MapView::updateVisibleTilesCache` past the early return (the
part from line 281 on), for camera position `cameraPosition`.  The
mouse-position adjustment and the highlight update inside the camera-change
branch touch only unmodelled fields; of the change callbacks, only
`onFloorChange` mutates modelled state (it marks the visible-creature cache
stale).  The cache-clearing `do/while` clears the floors
`floorMin … max floorMin floorMax` before both extents are reset to the
camera floor. -/
def rebuildBody (g : WorldGrid) (s : MapViewState) (cameraPosition : Position) :
    MapViewState :=
    let creatureRefresh :=
      s.mustUpdateVisibleCreaturesCache ||
        (s.lastCameraPosition ≠ cameraPosition ∧ s.lastCameraPosition.z ≠ cameraPosition.z)
    let cachedFirstVisibleFloor := calcFirstVisibleFloor g s
    let cachedLastVisibleFloor0 := calcLastVisibleFloor g s
    let cachedLastVisibleFloor :=
      if cachedLastVisibleFloor0 < cachedFirstVisibleFloor then cachedFirstVisibleFloor
      else cachedLastVisibleFloor0
    let clearedTiles : Nat → VisibleFloor := fun f =>
      if s.floorMin ≤ f ∧ f ≤ max s.floorMin s.floorMax then VisibleFloor.empty
      else s.cachedVisibleTiles f
    let cameraZ := cameraPosition.z.toNat
    let acc : SweepAcc :=
      { tiles := clearedTiles
        visibleCreatures := if creatureRefresh then [] else s.visibleCreatures
        floorMin := cameraZ
        floorMax := cameraZ }
    let acc := sweep g creatureRefresh s cameraPosition cachedFirstVisibleFloor
      cachedLastVisibleFloor acc
    { s with mustUpdateVisibleTilesCache := false
             mustUpdateVisibleCreaturesCache := false
             lastCameraPosition := cameraPosition
             cachedFirstVisibleFloor := cachedFirstVisibleFloor
             cachedLastVisibleFloor := cachedLastVisibleFloor
             cachedVisibleTiles := acc.tiles
             visibleCreatures := acc.visibleCreatures
             floorMin := acc.floorMin
             floorMax := acc.floorMax }

/-- `MapView::updateVisibleTilesCache`: an invalid camera position aborts
before any mutation, otherwise the rebuild body runs. -/
def updateVisibleTilesCache (g : WorldGrid) (s : MapViewState) : MapViewState :=
  let cameraPosition := getCameraPosition s
  if ¬ cameraPosition.isValid then s
  else rebuildBody g s cameraPosition

/-- Which per-frame render passes `MapView::draw` performs. -/
structure DrawPasses where
  floorPass : Bool
  creatureInformationPass : Bool
  lightPass : Bool
  textPass : Bool
deriving DecidableEq, Repr

/-- `MapView::draw`: rebuild the visibility cache if requested, always run the
floor/background pass, and perform the creature-information, light and text
passes only for a valid camera (the rect cache recomputation touches only
unmodelled fields). -/
def draw (g : WorldGrid) (s : MapViewState) : MapViewState × DrawPasses :=
  let s := if s.mustUpdateVisibleTilesCache then updateVisibleTilesCache g s else s
  if ¬ (getCameraPosition s).isValid then
    (s, ⟨true, false, false, false⟩)
  else
    (s, ⟨true, true, s.drawLights, true⟩)

end MapView

/-- Membership of a tile in any draw bucket of floor `f`. -/
def MapView.inBuckets (tiles : Nat → VisibleFloor) (f : Nat) (t : Tile) : Prop :=
  t ∈ (tiles f).grounds ∨ t ∈ (tiles f).borders ∨ t ∈ (tiles f).bottomTops

/-! ## List-containment predicates used by the statements -/

/-- `l` is an initial segment of `m`. -/
def PrefixOf {α : Type} (l m : List α) : Prop := ∃ t, l ++ t = m

/-- `l` occurs contiguously (in order) inside `m`. -/
def SegmentOf {α : Type} (l m : List α) : Prop := ∃ u v, u ++ (l ++ v) = m

/-! ## Concrete instances used by witnesses and counterexamples -/

/-- A world with no tiles at all and free look. -/
def worldEmpty : WorldGrid := ⟨fun _ => none, fun _ => true⟩

/-- MapView state right after construction and `setVisibleDimension(Size(15, 11))`
at 100% render scale, with the camera fixed at `(100, 100, 7)` and one rebuild
already performed (so `lastCameraPosition` holds the camera position). -/
def baseState : MapViewState :=
  { follow := false
    followingCreaturePos := none
    customCameraPosition := ⟨100, 100, 7⟩
    lastCameraPosition := ⟨100, 100, 7⟩
    lockedFirstVisibleFloor := 255
    multifloor := true
    autoViewMode := true
    viewMode := .NEAR_VIEW
    renderScale := 100
    visibleDimension := ⟨15, 11⟩
    drawDimension := ⟨18, 14⟩
    tileSize := 32
    virtualCenterOffset := (8, 6)
    visibleCenterOffset := (8, 6)
    optimizedSize := ⟨480, 352⟩
    awareRange := ⟨8, 9, 6, 7⟩
    moveOffset := (0, 0)
    mustUpdateVisibleTilesCache := true
    mustUpdateVisibleCreaturesCache := false
    cachedFirstVisibleFloor := 7
    cachedLastVisibleFloor := 7
    floorMin := 7
    floorMax := 7
    cachedVisibleTiles := fun _ => VisibleFloor.empty
    visibleCreatures := []
    drawLights := false }

/-- `baseState` with an invalid (default-constructed) fixed camera, as after
following a creature whose position is not known. -/
def invalidCamState : MapViewState :=
  { baseState with customCameraPosition := Position.sentinel }

/-- A small state for executable witnesses: 3×3 draw dimension, camera fixed
at `(5, 5, 7)`, single-floor view, creature cache refresh pending. -/
def smallState : MapViewState :=
  { baseState with
    customCameraPosition := ⟨5, 5, 7⟩
    lastCameraPosition := ⟨5, 5, 7⟩
    multifloor := false
    autoViewMode := false
    visibleDimension := ⟨3, 3⟩
    drawDimension := ⟨6, 6⟩
    virtualCenterOffset := (0, 0)
    visibleCenterOffset := (0, 0)
    mustUpdateVisibleCreaturesCache := true }

/-- A drawable ground tile with two creatures, no light, completely covered
from every first visible floor. -/
def coveredTile : Tile :=
  { isDrawable := true
    hasGround := true
    hasGroundBorderToDraw := false
    hasBottomOrTopToDraw := false
    hasLight := false
    getCreatures := [1, 2]
    isCompletelyCovered := fun _ => true
    limitsFloorsView := fun _ => false }

/-- A world holding exactly `coveredTile` at `(6, 6, 7)`. -/
def worldOneTile : WorldGrid :=
  ⟨fun p => if p = ⟨6, 6, 7⟩ then some coveredTile else none, fun _ => true⟩


/-! # Theorems -/

/-! ## Generic helper lemmas -/

theorem foldl_invariant {α β : Type} (P : β → Prop) (f : β → α → β) :
    ∀ (l : List α) (b : β), P b → (∀ b a, a ∈ l → P b → P (f b a)) → P (l.foldl f b) := by
  intro l
  induction l with
  | nil => intro b hb _; exact hb
  | cons a l ih =>
    intro b hb hf
    exact ih (f b a) (hf b a (List.mem_cons_self a l) hb)
      (fun b c hc hb => hf b c (List.mem_cons_of_mem a hc) hb)

theorem prefixOf_refl {α : Type} (l : List α) : PrefixOf l l := ⟨[], List.append_nil l⟩

theorem prefixOf_trans {α : Type} {l m n : List α} (h1 : PrefixOf l m) (h2 : PrefixOf m n) :
    PrefixOf l n := by
  obtain ⟨t1, rfl⟩ := h1
  obtain ⟨t2, rfl⟩ := h2
  exact ⟨t1 ++ t2, (List.append_assoc l t1 t2).symm⟩

theorem segmentOf_append {α : Type} (u l : List α) : SegmentOf l (u ++ l) :=
  ⟨u, [], by simp⟩

theorem segmentOf_of_prefixOf {α : Type} {l m n : List α} (h1 : SegmentOf l m)
    (h2 : PrefixOf m n) : SegmentOf l n := by
  obtain ⟨u, v, rfl⟩ := h1
  obtain ⟨t, rfl⟩ := h2
  exact ⟨u, v ++ t, by simp⟩

/-! ## C6 (corrected) -/

/-- The claim states that `setCameraPosition` also resets the cached
last-camera-position sentinel; in the code only `followCreature` assigns
`m_lastCameraPosition = Position()`, while `setCameraPosition` merely
requests a cache update.  Concretely: from a state whose cached last camera
position is `(100, 100, 7)`, entering fixed mode leaves it untouched. -/
theorem C6_counterexample :
    (MapView.setCameraPosition baseState ⟨50, 50, 7⟩).lastCameraPosition =
      (⟨100, 100, 7⟩ : Position) ∧
    (⟨100, 100, 7⟩ : Position) ≠ Position.sentinel := by
  constructor
  · rfl
  · decide

/-- C6 (amended): `followCreature` resets the cached last-camera-position
sentinel to the invalid default position — which differs from every valid
camera position, so the next rebuild treats the camera as changed — and marks
the cache dirty; `setCameraPosition` only marks the cache dirty, leaving the
last-camera-position field unchanged. -/
theorem C6_camera_mode_switch (s : MapViewState) (cp p : Position) :
    (MapView.followCreature s cp).lastCameraPosition = Position.sentinel ∧
    (MapView.followCreature s cp).mustUpdateVisibleTilesCache = true ∧
    (∀ cam : Position, cam.isValid = true → Position.sentinel ≠ cam) ∧
    (MapView.setCameraPosition s p).lastCameraPosition = s.lastCameraPosition ∧
    (MapView.setCameraPosition s p).mustUpdateVisibleTilesCache = true := by
  refine ⟨rfl, rfl, ?_, rfl, rfl⟩
  intro cam hcam heq
  rw [← heq] at hcam
  exact absurd hcam (by decide)

/-- C6 witness: the amended statement at the concrete state. -/
theorem C6_camera_mode_switch_witness :
    (MapView.followCreature baseState ⟨100, 100, 7⟩).lastCameraPosition = Position.sentinel ∧
    Position.sentinel ≠ (⟨100, 100, 7⟩ : Position) := by
  have h := C6_camera_mode_switch baseState ⟨100, 100, 7⟩ ⟨50, 50, 7⟩
  exact ⟨h.1, h.2.2.1 ⟨100, 100, 7⟩ (by decide)⟩

/-! ## C5 (corrected) -/

/-- The claim states the computed draw dimension is the visible dimension plus
a 2-tile margin per axis; the code computes `visibleDimension + Size(3)`.
At the default visible dimension 15×11 the computed draw dimension is 18×14,
not 17×13. -/
theorem C5_counterexample :
    (MapView.updateGeometry 16384 8 6 baseState ⟨15, 11⟩ ⟨480, 352⟩).1.drawDimension ≠
      (⟨15 + 2, 11 + 2⟩ : Size) := by
  decide

/-- C5 (amended): for every visible dimension accepted by `updateGeometry`,
the computed draw dimension is the visible dimension plus a 3-tile margin in
each axis. -/
theorem C5_draw_dimension_margin (maxTex : Nat) (mal mat : Int) (s : MapViewState)
    (vd os : Size)
    (haccept : (MapView.updateGeometry maxTex mal mat s vd os).2 = GeoLog.ok) :
    (MapView.updateGeometry maxTex mal mat s vd os).1.drawDimension =
      (⟨vd.w + 3, vd.h + 3⟩ : Size) ∧
    (MapView.updateGeometry maxTex mal mat s vd os).1.visibleDimension = vd := by
  simp only [MapView.updateGeometry, apply_ite Prod.snd] at haccept
  split at haccept
  · exact absurd haccept (by simp)
  · rename_i hbuf
    simp only [MapView.updateGeometry]
    rw [if_neg hbuf]
    exact ⟨rfl, rfl⟩

/-- C5 witness: the amended statement at the default geometry. -/
theorem C5_draw_dimension_margin_witness :
    (MapView.updateGeometry 16384 8 6 baseState ⟨15, 11⟩ ⟨480, 352⟩).1.drawDimension =
      (⟨15 + 3, 11 + 3⟩ : Size) ∧
    (MapView.updateGeometry 16384 8 6 baseState ⟨15, 11⟩ ⟨480, 352⟩).1.visibleDimension =
      (⟨15, 11⟩ : Size) :=
  C5_draw_dimension_margin 16384 8 6 baseState ⟨15, 11⟩ ⟨480, 352⟩ (by decide)

/-! ## C4 -/

/-- C4: a geometry update via `setVisibleDimension` with an even-sized visible
dimension, a dimension smaller than 3×3, or a buffer exceeding the backend's
maximum texture size is rejected: the corresponding error is logged, the
update aborts, and the entire prior state (in particular the visible
dimension, draw dimension, tile size, view mode and aware range) is
retained.  (The `visibleDimension ≠ current` hypothesis excludes the silent
no-op path taken for a repeated dimension.) -/
theorem C4_geometry_rejection (maxTex : Nat) (mal mat : Int) (s : MapViewState) (vd : Size)
    (hne : vd ≠ s.visibleDimension) :
    ((vd.w % 2 ≠ 1 ∨ vd.h % 2 ≠ 1) →
      MapView.setVisibleDimension maxTex mal mat s vd = (s, GeoLog.oddDimensionError)) ∧
    (vd.w % 2 = 1 → vd.h % 2 = 1 → Size.ltDim vd ⟨3, 3⟩ = true →
      MapView.setVisibleDimension maxTex mal mat s vd = (s, GeoLog.maxZoomInError)) ∧
    (vd.w % 2 = 1 → vd.h % 2 = 1 → Size.ltDim vd ⟨3, 3⟩ = false →
      ((vd.w + 3) * (Otc.TILE_PIXELS * s.renderScale / 100) > maxTex ∨
        (vd.h + 3) * (Otc.TILE_PIXELS * s.renderScale / 100) > maxTex) →
      MapView.setVisibleDimension maxTex mal mat s vd = (s, GeoLog.maxZoomOutError)) := by
  refine ⟨?_, ?_, ?_⟩
  · intro hodd
    unfold MapView.setVisibleDimension
    rw [if_neg hne, if_pos hodd]
  · intro hw hh hlt
    unfold MapView.setVisibleDimension
    rw [if_neg hne, if_neg (by omega), if_pos hlt]
  · intro hw hh hlt hbuf
    unfold MapView.setVisibleDimension
    rw [if_neg hne, if_neg (by omega), if_neg (by simp [hlt])]
    simp only [MapView.updateGeometry]
    rw [if_pos hbuf]

/-- C4 witness: `setVisibleDimension(Size(16, 11))` (even width) from the
default 15×11 state is rejected with the odd-dimension error and returns the
state unchanged. -/
theorem C4_geometry_rejection_witness :
    MapView.setVisibleDimension 16384 8 6 baseState ⟨16, 11⟩ =
      (baseState, GeoLog.oddDimensionError) :=
  (C4_geometry_rejection 16384 8 6 baseState ⟨16, 11⟩ (by decide)).1 (by decide)

/-! ## C8 -/

/-- C8: with auto view mode enabled, an accepted geometry update selects
NEAR view at full-zoom tile size (≥ TILE_PIXELS) and visible area ≤ 32×32,
else MID at ≥ 16 px/tile and ≤ 64×64, else FAR at ≥ 8 px/tile and ≤ 128×128,
else HUGE; multi-floor rendering is enabled exactly for NEAR and MID. -/
theorem C8_auto_view_mode (maxTex : Nat) (mal mat : Int) (s : MapViewState) (vd os : Size)
    (hauto : s.autoViewMode = true)
    (haccept : (MapView.updateGeometry maxTex mal mat s vd os).2 = GeoLog.ok) :
    ((Otc.TILE_PIXELS ≤ Otc.TILE_PIXELS * s.renderScale / 100 ∧ vd.area ≤ NEAR_VIEW_AREA) →
      (MapView.updateGeometry maxTex mal mat s vd os).1.viewMode = ViewMode.NEAR_VIEW ∧
      (MapView.updateGeometry maxTex mal mat s vd os).1.multifloor = true) ∧
    (¬ (Otc.TILE_PIXELS ≤ Otc.TILE_PIXELS * s.renderScale / 100 ∧ vd.area ≤ NEAR_VIEW_AREA) →
      (16 ≤ Otc.TILE_PIXELS * s.renderScale / 100 ∧ vd.area ≤ MID_VIEW_AREA) →
      (MapView.updateGeometry maxTex mal mat s vd os).1.viewMode = ViewMode.MID_VIEW ∧
      (MapView.updateGeometry maxTex mal mat s vd os).1.multifloor = true) ∧
    (¬ (Otc.TILE_PIXELS ≤ Otc.TILE_PIXELS * s.renderScale / 100 ∧ vd.area ≤ NEAR_VIEW_AREA) →
      ¬ (16 ≤ Otc.TILE_PIXELS * s.renderScale / 100 ∧ vd.area ≤ MID_VIEW_AREA) →
      (8 ≤ Otc.TILE_PIXELS * s.renderScale / 100 ∧ vd.area ≤ FAR_VIEW_AREA) →
      (MapView.updateGeometry maxTex mal mat s vd os).1.viewMode = ViewMode.FAR_VIEW ∧
      (MapView.updateGeometry maxTex mal mat s vd os).1.multifloor = false) ∧
    (¬ (Otc.TILE_PIXELS ≤ Otc.TILE_PIXELS * s.renderScale / 100 ∧ vd.area ≤ NEAR_VIEW_AREA) →
      ¬ (16 ≤ Otc.TILE_PIXELS * s.renderScale / 100 ∧ vd.area ≤ MID_VIEW_AREA) →
      ¬ (8 ≤ Otc.TILE_PIXELS * s.renderScale / 100 ∧ vd.area ≤ FAR_VIEW_AREA) →
      (MapView.updateGeometry maxTex mal mat s vd os).1.viewMode = ViewMode.HUGE_VIEW ∧
      (MapView.updateGeometry maxTex mal mat s vd os).1.multifloor = false) ∧
    ((MapView.updateGeometry maxTex mal mat s vd os).1.multifloor = true ↔
      ((MapView.updateGeometry maxTex mal mat s vd os).1.viewMode = ViewMode.NEAR_VIEW ∨
        (MapView.updateGeometry maxTex mal mat s vd os).1.viewMode = ViewMode.MID_VIEW)) := by
  simp only [MapView.updateGeometry, apply_ite Prod.snd] at haccept
  split at haccept
  · exact absurd haccept (by simp)
  · rename_i hbuf
    have hview : (MapView.updateGeometry maxTex mal mat s vd os).1.viewMode =
        MapView.selectViewMode (Otc.TILE_PIXELS * s.renderScale / 100) vd.area := by
      simp only [MapView.updateGeometry]
      rw [if_neg hbuf]
      simp [hauto]
    have hmulti : (MapView.updateGeometry maxTex mal mat s vd os).1.multifloor =
        decide ((MapView.selectViewMode (Otc.TILE_PIXELS * s.renderScale / 100)
          vd.area).toNat < ViewMode.FAR_VIEW.toNat) := by
      simp only [MapView.updateGeometry]
      rw [if_neg hbuf]
      simp [hauto]
    refine ⟨?_, ?_, ?_, ?_, ?_⟩
    · intro h1
      rw [hview, hmulti]
      unfold MapView.selectViewMode
      rw [if_pos h1]
      exact ⟨rfl, by decide⟩
    · intro h1 h2
      rw [hview, hmulti]
      unfold MapView.selectViewMode
      rw [if_neg h1, if_pos h2]
      exact ⟨rfl, by decide⟩
    · intro h1 h2 h3
      rw [hview, hmulti]
      unfold MapView.selectViewMode
      rw [if_neg h1, if_neg h2, if_pos h3]
      exact ⟨rfl, by decide⟩
    · intro h1 h2 h3
      rw [hview, hmulti]
      unfold MapView.selectViewMode
      rw [if_neg h1, if_neg h2, if_neg h3]
      exact ⟨rfl, by decide⟩
    · rw [hview, hmulti]
      cases MapView.selectViewMode (Otc.TILE_PIXELS * s.renderScale / 100) vd.area <;> decide

/-- C8 witness: at 100% render scale with the default 15×11 visible dimension
(full zoom, area 165 ≤ 32×32) the NEAR view is selected and multi-floor
rendering is enabled. -/
theorem C8_auto_view_mode_witness :
    (MapView.updateGeometry 16384 8 6 baseState ⟨15, 11⟩ ⟨480, 352⟩).1.viewMode =
      ViewMode.NEAR_VIEW ∧
    (MapView.updateGeometry 16384 8 6 baseState ⟨15, 11⟩ ⟨480, 352⟩).1.multifloor = true :=
  (C8_auto_view_mode 16384 8 6 baseState ⟨15, 11⟩ ⟨480, 352⟩ (by decide) (by decide)).1
    (by decide)

/-! ## C9 -/

/-- Per-call law of `MapView::move`: each axis commits the truncated quotient
of the accumulated offset by the tile size to the fixed camera and keeps the
truncated remainder (when no tile boundary is crossed the quotient is 0 and
the remainder is the accumulated offset itself). -/
theorem move_law (s : MapViewState) (x y : Int) :
    (MapView.move s x y).moveOffset.1 = Int.tmod (s.moveOffset.1 + x) 32 ∧
    (MapView.move s x y).moveOffset.2 = Int.tmod (s.moveOffset.2 + y) 32 ∧
    (MapView.move s x y).customCameraPosition.x =
      s.customCameraPosition.x + Int.tdiv (s.moveOffset.1 + x) 32 ∧
    (MapView.move s x y).customCameraPosition.y =
      s.customCameraPosition.y + Int.tdiv (s.moveOffset.2 + y) 32 := by
  have hx := Int.tmod_add_tdiv (s.moveOffset.1 + x) 32
  have hy := Int.tmod_add_tdiv (s.moveOffset.2 + y) 32
  refine ⟨?_, ?_, ?_, ?_⟩ <;>
    · simp only [MapView.move, Otc.TILE_PIXELS, Nat.cast_ofNat]
      split_ifs with h <;> omega

/-- C9: tile-aligned panning is reversible — from a state with no accumulated
sub-tile offset, `move(x, 0)` followed by `move(-x, 0)` for `x = 32k` returns
the fixed camera position to its original tile with zero residual offset —
and every call commits the whole-tile part of the accumulated offset (the
truncated quotient by `TILE_PIXELS`) to the camera, the fractional remainder
(the truncated remainder) carrying over. -/
theorem C9_move_roundtrip (s : MapViewState) (x y k : Int) :
    ((MapView.move s x y).moveOffset.1 = Int.tmod (s.moveOffset.1 + x) 32 ∧
      (MapView.move s x y).moveOffset.2 = Int.tmod (s.moveOffset.2 + y) 32 ∧
      (MapView.move s x y).customCameraPosition.x =
        s.customCameraPosition.x + Int.tdiv (s.moveOffset.1 + x) 32 ∧
      (MapView.move s x y).customCameraPosition.y =
        s.customCameraPosition.y + Int.tdiv (s.moveOffset.2 + y) 32) ∧
    (s.moveOffset = (0, 0) →
      (MapView.move (MapView.move s (32 * k) 0) (-(32 * k)) 0).customCameraPosition =
        s.customCameraPosition ∧
      (MapView.move (MapView.move s (32 * k) 0) (-(32 * k)) 0).moveOffset = (0, 0)) := by
  refine ⟨move_law s x y, ?_⟩
  intro h0
  have h1 := move_law s (32 * k) 0
  have h2 := move_law (MapView.move s (32 * k) 0) (-(32 * k)) 0
  have ho1 : s.moveOffset.1 = 0 := by rw [h0]
  have ho2 : s.moveOffset.2 = 0 := by rw [h0]
  have e1 : Int.tmod (32 * k) 32 = 0 := by
    rw [Int.mul_comm]
    exact Int.mul_tmod_left k 32
  have e2 : Int.tdiv (32 * k) 32 = k := Int.mul_tdiv_cancel_left k (by decide)
  have e3 : Int.tmod (0 : Int) 32 = 0 := Int.zero_tmod 32
  have e4 : Int.tdiv (0 : Int) 32 = 0 := Int.zero_tdiv 32
  have e5 : Int.tmod (-(32 * k)) 32 = 0 := by
    have : -(32 * k) = 32 * (-k) := by ring
    rw [this, Int.mul_comm]
    exact Int.mul_tmod_left (-k) 32
  have e6 : Int.tdiv (-(32 * k)) 32 = -k := by
    have : -(32 * k) = 32 * (-k) := by ring
    rw [this]
    exact Int.mul_tdiv_cancel_left (-k) (by decide)
  obtain ⟨m1a, m1b, m1c, m1d⟩ := h1
  obtain ⟨m2a, m2b, m2c, m2d⟩ := h2
  rw [ho1, Int.zero_add, e1] at m1a
  rw [ho2, Int.zero_add, e3] at m1b
  rw [ho1, Int.zero_add, e2] at m1c
  rw [ho2, Int.zero_add, e4] at m1d
  rw [m1a, Int.zero_add, e5] at m2a
  rw [m1b, Int.zero_add, e3] at m2b
  rw [m1a, Int.zero_add, e6] at m2c
  rw [m1b, Int.zero_add, e4] at m2d
  constructor
  · have hz : (MapView.move (MapView.move s (32 * k) 0) (-(32 * k)) 0).customCameraPosition.z =
        s.customCameraPosition.z := rfl
    rw [m1c] at m2c
    rw [m1d] at m2d
    have hx : (MapView.move (MapView.move s (32 * k) 0) (-(32 * k)) 0).customCameraPosition.x =
        s.customCameraPosition.x := by rw [m2c]; ring
    have hy : (MapView.move (MapView.move s (32 * k) 0) (-(32 * k)) 0).customCameraPosition.y =
        s.customCameraPosition.y := by rw [m2d]; ring
    cases hcam : (MapView.move (MapView.move s (32 * k) 0) (-(32 * k)) 0).customCameraPosition
    rw [hcam] at hx hy hz
    cases hcam2 : s.customCameraPosition
    rw [hcam2] at hx hy hz
    simp only at hx hy hz
    rw [hx, hy, hz]
  · cases hoff : (MapView.move (MapView.move s (32 * k) 0) (-(32 * k)) 0).moveOffset
    rw [hoff] at m2a m2b
    simp only at m2a m2b
    rw [m2a, m2b]

/-- C9 witness: the round trip at `x = 64` from the default state. -/
theorem C9_move_roundtrip_witness :
    (MapView.move (MapView.move baseState (32 * 2) 0) (-(32 * 2)) 0).customCameraPosition =
      baseState.customCameraPosition ∧
    (MapView.move (MapView.move baseState (32 * 2) 0) (-(32 * 2)) 0).moveOffset = (0, 0) :=
  (C9_move_roundtrip baseState 64 0 2).2 (by decide)

/-! ## C3 -/

/-- C3: with an invalid camera position the visibility cache rebuild returns
with no mutation at all, and `draw` still performs the floor/background pass
while skipping the creature-information, light and text passes; since the
dirty flag is among the untouched fields, a later frame with a valid camera
performs the rebuild as usual (which then clears the flag). -/
theorem C3_invalid_camera (g : WorldGrid) (s : MapViewState)
    (h : (MapView.getCameraPosition s).isValid = false) :
    MapView.updateVisibleTilesCache g s = s ∧
    MapView.draw g s = (s, ⟨true, false, false, false⟩) ∧
    (∀ s2 : MapViewState, (MapView.getCameraPosition s2).isValid = true →
      s2.mustUpdateVisibleTilesCache = true →
      (MapView.draw g s2).1 = MapView.updateVisibleTilesCache g s2 ∧
      (MapView.updateVisibleTilesCache g s2).mustUpdateVisibleTilesCache = false) := by
  have hskip : MapView.updateVisibleTilesCache g s = s := by
    simp only [MapView.updateVisibleTilesCache]
    rw [if_pos (by simp [h])]
  refine ⟨hskip, ?_, ?_⟩
  · simp only [MapView.draw, hskip]
    split <;> rename_i hflag
    · rw [if_pos (by simp [h])]
    · rw [if_pos (by simp [h])]
  · intro s2 hv hf
    constructor
    · simp only [MapView.draw, hf, if_true]
      split <;> rfl
    · simp only [MapView.updateVisibleTilesCache]
      rw [if_neg (by simp [hv])]
      simp only [MapView.rebuildBody]

/-- C3 witness: the statement at the empty world and the state with the
default-constructed (invalid) fixed camera. -/
theorem C3_invalid_camera_witness :
    MapView.updateVisibleTilesCache worldEmpty invalidCamState = invalidCamState ∧
    MapView.draw worldEmpty invalidCamState =
      (invalidCamState, ⟨true, false, false, false⟩) := by
  have h := C3_invalid_camera worldEmpty invalidCamState (by decide)
  exact ⟨h.1, h.2.1⟩

/-! ## C7 -/

/-- During the fade-out (elapsed time within the fade-out duration) the frame
hook leaves the state untouched and reports the linear 1→0 opacity ramp. -/
theorem onBeforeDrawFade_fadeout (sh0 nx : Option Nat) (fi fo start now : Rat)
    (hfo : 0 < fo) (h2 : now - start ≤ fo) :
    MapView.onBeforeDrawFade ⟨sh0, nx, false, fi, fo, start⟩ now =
      (⟨sh0, nx, false, fi, fo, start⟩, 1 - (now - start) / fo) := by
  have hnotneg : ¬ (1 - (now - start) / fo < 0) := by
    have := (div_le_one hfo).mpr h2
    linarith
  simp only [MapView.onBeforeDrawFade]
  rw [if_pos (by exact ⟨by simp, hfo⟩), if_neg hnotneg, if_neg (by simp)]

/-- At the first frame past the fade-out duration the hook swaps the shader
pointer to the pending one, restarts the timer and reports opacity 0. -/
theorem onBeforeDrawFade_swap (sh0 : Option Nat) (nx : Option Nat) (fi fo start now : Rat)
    (hfo : 0 < fo) (h : fo < now - start) (hnx : nx ≠ none) (hfi : 0 < fi) :
    MapView.onBeforeDrawFade ⟨sh0, nx, false, fi, fo, start⟩ now =
      (⟨nx, none, true, fi, fo, now⟩, 0) := by
  have hneg : 1 - (now - start) / fo < 0 := by
    have := (one_lt_div hfo).mpr h
    linarith
  simp only [MapView.onBeforeDrawFade]
  rw [if_pos (by exact ⟨by simp, hfo⟩), if_pos hneg,
    if_pos (by exact ⟨by simp, hnx, hfi⟩)]
  simp

/-- After the switch, a frame within the fade-in duration leaves the state
untouched and reports the linear 0→1 opacity ramp. -/
theorem onBeforeDrawFade_fadein (st : FadeState) (u : Rat)
    (hsd : st.shaderSwitchDone = true) (hsh : st.shader ≠ none)
    (hfi : 0 < st.fadeInTime) (h2 : u - st.fadeTimerStart ≤ st.fadeInTime) :
    MapView.onBeforeDrawFade st u = (st, (u - st.fadeTimerStart) / st.fadeInTime) := by
  simp only [MapView.onBeforeDrawFade]
  rw [if_neg (by simp [hsd]), if_pos (by exact ⟨hsd, hsh, hfi⟩)]
  rw [min_eq_left ((div_le_one hfi).mpr h2)]

/-- C7: `setShader` with `fadeout ≤ 0` swaps the active shader immediately
(no intermediate fading state); with `fadeout > 0` and a shader active it
enters the fading state, the per-frame opacity ramps linearly from 1 to 0
while the elapsed time is within the fade-out duration (shader pointer
unchanged), the pointer swaps to the next shader at the first frame past the
0-opacity crossing with opacity exactly 0 there, and afterwards the opacity
ramps linearly from 0 to 1 over the fade-in duration. -/
theorem C7_shader_fade (s : FadeState) (now : Rat) (sh : Option Nat) (fi fo : Rat)
    (hne : sh ≠ s.shader) :
    (fo ≤ 0 → MapView.setShader s now sh fi fo = ⟨sh, none, true, fi, fo, now⟩) ∧
    (0 < fo → s.shader ≠ none →
      MapView.setShader s now sh fi fo = ⟨s.shader, sh, false, fi, fo, now⟩ ∧
      (∀ t, t - now ≤ fo →
        MapView.onBeforeDrawFade ⟨s.shader, sh, false, fi, fo, now⟩ t =
          (⟨s.shader, sh, false, fi, fo, now⟩, 1 - (t - now) / fo)) ∧
      (∀ t, fo < t - now → sh ≠ none → 0 < fi →
        MapView.onBeforeDrawFade ⟨s.shader, sh, false, fi, fo, now⟩ t =
          (⟨sh, none, true, fi, fo, t⟩, 0))) ∧
    (∀ (st : FadeState) (u : Rat), st.shaderSwitchDone = true → st.shader ≠ none →
      0 < st.fadeInTime → u - st.fadeTimerStart ≤ st.fadeInTime →
      MapView.onBeforeDrawFade st u = (st, (u - st.fadeTimerStart) / st.fadeInTime)) := by
  refine ⟨?_, ?_, ?_⟩
  · intro hfo
    simp only [MapView.setShader]
    rw [if_neg (fun heq => hne heq.symm),
      if_neg (fun hc => absurd hc.1 (not_lt.mpr hfo))]
  · intro hfo hsh
    refine ⟨?_, ?_, ?_⟩
    · simp only [MapView.setShader]
      rw [if_neg (fun heq => hne heq.symm), if_pos (by exact ⟨hfo, hsh⟩)]
    · intro t h2
      exact onBeforeDrawFade_fadeout s.shader sh fi fo now t hfo h2
    · intro t h hshne hfi
      exact onBeforeDrawFade_swap s.shader sh fi fo now t hfo h hshne hfi
  · intro st u hsd hsh hfi h2
    exact onBeforeDrawFade_fadein st u hsd hsh hfi h2

/-- C7 witness: switching from shader 1 to shader 2 at time 0 with
fade-out 500 and fade-in 300 — fading state entered, opacity 1/2 at t = 250,
pointer swap with opacity 0 at t = 600, opacity 1/2 again at t = 750 of the
fade-in. -/
theorem C7_shader_fade_witness :
    MapView.setShader ⟨some 1, none, true, 1, 1, 0⟩ 0 (some 2) 300 500 =
      ⟨some 1, some 2, false, 300, 500, 0⟩ ∧
    MapView.onBeforeDrawFade ⟨some 1, some 2, false, 300, 500, 0⟩ 250 =
      (⟨some 1, some 2, false, 300, 500, 0⟩, 1 - ((250 : Rat) - 0) / 500) ∧
    MapView.onBeforeDrawFade ⟨some 1, some 2, false, 300, 500, 0⟩ 600 =
      (⟨some 2, none, true, 300, 500, 600⟩, 0) ∧
    MapView.onBeforeDrawFade ⟨some 2, none, true, 300, 500, 600⟩ 750 =
      (⟨some 2, none, true, 300, 500, 600⟩, ((750 : Rat) - 600) / 300) := by
  have h := C7_shader_fade ⟨some 1, none, true, 1, 1, 0⟩ 0 (some 2) 300 500 (by decide)
  have hb := h.2.1 (by norm_num) (by decide)
  refine ⟨hb.1, hb.2.1 250 (by norm_num), hb.2.2 600 (by norm_num) (by decide) (by norm_num), ?_⟩
  exact h.2.2 ⟨some 2, none, true, 300, 500, 600⟩ 750 rfl (by decide) (by norm_num) (by norm_num)

/-! ## C1 -/

theorem Position.coveredUp1_z {p q : Position} (h : p.coveredUp1 = some q) :
    q.z = p.z - 1 := by
  unfold Position.coveredUp1 at h
  split at h
  · cases h
    rfl
  · exact absurd h (by simp)

theorem Position.up1_z {p q : Position} (h : p.up1 = some q) : q.z = p.z - 1 := by
  unfold Position.up1 at h
  split at h
  · cases h
    rfl
  · exact absurd h (by simp)

/-- The blocker-search loop can only raise the first visible floor to just
above a floor strictly below its starting position, so its result is bounded
by `max firstFloor upperPos.z`. -/
theorem limitLoop_le (g : WorldGrid) (look : Bool) :
    ∀ (fuel : Nat) (upper covered : Position) (ff : Int), covered.z = upper.z →
      MapView.limitLoop g look fuel upper covered ff ≤ max ff upper.z := by
  intro fuel
  induction fuel with
  | zero =>
    intro upper covered ff _
    simp only [MapView.limitLoop]
    exact le_max_left _ _
  | succ n ih =>
    intro upper covered ff hz
    cases hcu : covered.coveredUp1 with
    | none =>
      simp only [MapView.limitLoop, hcu]
      exact le_max_left _ _
    | some c =>
      cases hu : upper.up1 with
      | none =>
        simp only [MapView.limitLoop, hcu, hu]
        exact le_max_left _ _
      | some u =>
        simp only [MapView.limitLoop, hcu, hu]
        have hcz : c.z = covered.z - 1 := Position.coveredUp1_z hcu
        have huz : u.z = upper.z - 1 := Position.up1_z hu
        by_cases hlt : u.z < ff
        · rw [if_pos hlt]
          exact le_max_left _ _
        · rw [if_neg hlt]
          push_neg at hlt
          by_cases h1 : MapView.tileLimitsView (g.getTile u) (!look) = true
          · rw [if_pos h1]
            have := le_max_right ff upper.z
            omega
          · rw [if_neg h1]
            by_cases h2 : MapView.tileLimitsView (g.getTile c) look = true
            · rw [if_pos h2]
              have := le_max_right ff upper.z
              omega
            · rw [if_neg h2]
              have hrec := ih u c ff (by omega)
              have h3 := le_max_right ff upper.z
              have h4 := le_max_left ff upper.z
              have h5 := max_le_max (le_refl ff) (show u.z ≤ upper.z by omega)
              exact le_trans hrec h5

theorem scanNeighbor_le (g : WorldGrid) (cam : Position) (ix iy ff : Int) :
    MapView.scanNeighbor g cam ix iy ff ≤ max ff cam.z := by
  simp only [MapView.scanNeighbor]
  split
  · exact limitLoop_le g _ _ _ _ ff rfl
  · exact le_max_left _ _

theorem scan3x3_le (g : WorldGrid) (cam : Position) (ff0 : Int) (h : ff0 ≤ cam.z) :
    MapView.scan3x3 g cam ff0 ≤ cam.z := by
  unfold MapView.scan3x3
  apply foldl_invariant (fun ff => ff ≤ cam.z)
  · exact h
  · intro b a _ hb
    by_cases hlt : b < cam.z
    · rw [if_pos hlt]
      have h1 := scanNeighbor_le g cam a.1 a.2 b
      rw [max_eq_right (le_of_lt hlt)] at h1
      exact h1
    · rw [if_neg hlt]
      exact hb

theorem clampZ_le_MAX (z : Int) : MapView.clampZ z ≤ Otc.MAX_Z := by
  unfold MapView.clampZ Otc.MAX_Z
  omega

theorem clampZ_mono {a b : Int} (h : a ≤ b) : MapView.clampZ a ≤ MapView.clampZ b := by
  unfold MapView.clampZ
  omega

theorem Position.isValid_bounds {p : Position} (h : p.isValid = true) :
    0 ≤ p.x ∧ 0 ≤ p.y ∧ 0 ≤ p.z ∧ p.z ≤ 15 := by
  unfold Position.isValid at h
  simp only [Bool.and_eq_true, decide_eq_true_eq, Otc.MAX_Z] at h
  refine ⟨?_, ?_, ?_, ?_⟩ <;> omega

theorem calcFirstVisibleFloor_le_MAX (g : WorldGrid) (s : MapViewState) :
    MapView.calcFirstVisibleFloor g s ≤ Otc.MAX_Z := by
  unfold MapView.calcFirstVisibleFloor
  exact clampZ_le_MAX _

theorem calcLastVisibleFloor_le_MAX (g : WorldGrid) (s : MapViewState) :
    MapView.calcLastVisibleFloor g s ≤ Otc.MAX_Z := by
  unfold MapView.calcLastVisibleFloor
  split
  · exact calcFirstVisibleFloor_le_MAX g s
  · exact clampZ_le_MAX _

theorem calcFirst_le_calcLast (g : WorldGrid) (s : MapViewState) :
    MapView.calcFirstVisibleFloor g s ≤ MapView.calcLastVisibleFloor g s := by
  by_cases hmf : s.multifloor = true
  case neg =>
    unfold MapView.calcLastVisibleFloor
    rw [if_pos (by simp [hmf])]
  case pos =>
    simp only [MapView.calcFirstVisibleFloor, MapView.calcLastVisibleFloor, hmf]
    simp only [not_true, if_false]
    by_cases hlock : s.lockedFirstVisibleFloor ≠ 255
    · rw [if_pos hlock, if_pos hlock]
      exact clampZ_mono (le_max_left _ _)
    · rw [if_neg hlock, if_neg hlock]
      by_cases hval : (MapView.getCameraPosition s).isValid = true
      · rw [if_pos hval, if_pos hval]
        set cam := MapView.getCameraPosition s with hcam
        obtain ⟨-, -, hz0, hz15⟩ := Position.isValid_bounds hval
        by_cases hsea : cam.z > (Otc.SEA_FLOOR : Int)
        · rw [if_pos hsea, if_pos hsea]
          apply clampZ_mono
          have e1 : (Otc.SEA_FLOOR : Int) = 7 := rfl
          have e2 : (Otc.AWARE_UNDEGROUND_FLOOR_RANGE : Int) = 2 := rfl
          rw [e1] at hsea
          have hff : (max (cam.z - (Otc.AWARE_UNDEGROUND_FLOOR_RANGE : Int))
              (Otc.UNDERGROUND_FLOOR : Int)) ≤ cam.z := by
            rw [e2, show (Otc.UNDERGROUND_FLOOR : Int) = 8 from rfl]
            omega
          have hscan := scan3x3_le g cam _ hff
          rw [e2] at hscan ⊢
          omega
        · rw [if_neg hsea, if_neg hsea]
          apply clampZ_mono
          have := scan3x3_le g cam 0 hz0
          simp only [Otc.SEA_FLOOR] at hsea ⊢
          omega
      · rw [if_neg hval, if_neg hval]

theorem mem_floorsDesc {iz lastFloor firstFloor : Nat}
    (h : iz ∈ MapView.floorsDesc lastFloor firstFloor) :
    firstFloor ≤ iz ∧ iz ≤ lastFloor := by
  unfold MapView.floorsDesc at h
  rw [List.mem_reverse, List.mem_range'_1] at h
  omega

theorem touchFloor_floors (acc : MapView.SweepAcc) (iz : Nat) (hiz : iz ≤ Otc.MAX_Z)
    (h1 : acc.floorMin ≤ acc.floorMax) (h2 : acc.floorMax ≤ Otc.MAX_Z) :
    (MapView.touchFloor acc iz).floorMin ≤ (MapView.touchFloor acc iz).floorMax ∧
    (MapView.touchFloor acc iz).floorMax ≤ Otc.MAX_Z := by
  unfold MapView.touchFloor
  split_ifs with ha hb
  · exact ⟨show iz ≤ acc.floorMax by omega, h2⟩
  · exact ⟨show acc.floorMin ≤ iz by omega, hiz⟩
  · exact ⟨h1, h2⟩

theorem processCell_floors (g : WorldGrid) (cr : Bool) (s : MapViewState)
    (cam : Position) (first iz : Nat) (acc : MapView.SweepAcc) (c : Int × Int)
    (hiz : iz ≤ Otc.MAX_Z)
    (h1 : acc.floorMin ≤ acc.floorMax) (h2 : acc.floorMax ≤ Otc.MAX_Z) :
    (MapView.processCell g cr s cam first iz acc c).floorMin ≤
      (MapView.processCell g cr s cam first iz acc c).floorMax ∧
    (MapView.processCell g cr s cam first iz acc c).floorMax ≤ Otc.MAX_Z := by
  simp only [MapView.processCell]
  split
  · exact ⟨h1, h2⟩
  · rename_i tile heq
    split_ifs <;>
      first
        | exact ⟨h1, h2⟩
        | exact touchFloor_floors _ iz hiz h1 h2

theorem sweep_floors (g : WorldGrid) (cr : Bool) (s : MapViewState) (cam : Position)
    (first lastFloor : Nat) (acc : MapView.SweepAcc) (hlast : lastFloor ≤ Otc.MAX_Z)
    (h1 : acc.floorMin ≤ acc.floorMax) (h2 : acc.floorMax ≤ Otc.MAX_Z) :
    (MapView.sweep g cr s cam first lastFloor acc).floorMin ≤
      (MapView.sweep g cr s cam first lastFloor acc).floorMax ∧
    (MapView.sweep g cr s cam first lastFloor acc).floorMax ≤ Otc.MAX_Z := by
  unfold MapView.sweep
  refine foldl_invariant
    (fun a : MapView.SweepAcc => a.floorMin ≤ a.floorMax ∧ a.floorMax ≤ Otc.MAX_Z)
    _ _ _ ⟨h1, h2⟩ ?_
  intro b iz hiz hb
  refine foldl_invariant
    (fun a : MapView.SweepAcc => a.floorMin ≤ a.floorMax ∧ a.floorMax ≤ Otc.MAX_Z)
    _ _ _ hb ?_
  intro b2 c _ hb2
  have hb2' : b2.floorMin ≤ b2.floorMax ∧ b2.floorMax ≤ Otc.MAX_Z := hb2
  exact processCell_floors g cr s cam first iz b2 c
    (le_trans (mem_floorsDesc hiz).2 hlast) hb2'.1 hb2'.2

/-- C1: for every world, camera position and floor lock value,
`calcFirstVisibleFloor() ≤ calcLastVisibleFloor()` after clamping, and both
are within `[0, MAX_Z]`; and after every visibility cache rebuild (i.e.
whenever the camera is valid, so that the rebuild runs) `floorMin ≤ floorMax`,
`cachedFirstVisibleFloor ≤ cachedLastVisibleFloor`, and all these floor
indices lie in `[0, MAX_Z]` (the lower bounds are inherent to `Nat`). -/
theorem C1_visible_floor_invariants (g : WorldGrid) (s : MapViewState) :
    MapView.calcFirstVisibleFloor g s ≤ MapView.calcLastVisibleFloor g s ∧
    MapView.calcLastVisibleFloor g s ≤ Otc.MAX_Z ∧
    ((MapView.getCameraPosition s).isValid = true →
      (MapView.updateVisibleTilesCache g s).floorMin ≤
        (MapView.updateVisibleTilesCache g s).floorMax ∧
      (MapView.updateVisibleTilesCache g s).floorMax ≤ Otc.MAX_Z ∧
      (MapView.updateVisibleTilesCache g s).cachedFirstVisibleFloor ≤
        (MapView.updateVisibleTilesCache g s).cachedLastVisibleFloor ∧
      (MapView.updateVisibleTilesCache g s).cachedLastVisibleFloor ≤ Otc.MAX_Z) := by
  refine ⟨calcFirst_le_calcLast g s, calcLastVisibleFloor_le_MAX g s, ?_⟩
  intro hval
  have hz15 : (MapView.getCameraPosition s).z.toNat ≤ Otc.MAX_Z := by
    have := (Position.isValid_bounds hval).2.2.2
    unfold Otc.MAX_Z
    omega
  have hlast15 :
      (if MapView.calcLastVisibleFloor g s < MapView.calcFirstVisibleFloor g s then
        MapView.calcFirstVisibleFloor g s else MapView.calcLastVisibleFloor g s) ≤
        Otc.MAX_Z := by
    split
    · exact calcFirstVisibleFloor_le_MAX g s
    · exact calcLastVisibleFloor_le_MAX g s
  simp only [MapView.updateVisibleTilesCache]
  rw [if_neg (by simp [hval])]
  simp only [MapView.rebuildBody]
  refine ⟨?_, ?_, ?_, ?_⟩
  · exact (sweep_floors _ _ _ _ _ _ _ hlast15 (le_refl _) hz15).1
  · exact (sweep_floors _ _ _ _ _ _ _ hlast15 (le_refl _) hz15).2
  · split
    · exact le_refl _
    · exact calcFirst_le_calcLast g s
  · exact hlast15

/-- C1 witness: the rebuild invariants at a concrete world and state. -/
theorem C1_visible_floor_invariants_witness :
    (MapView.getCameraPosition smallState).isValid = true ∧
    ((MapView.updateVisibleTilesCache worldOneTile smallState).floorMin ≤
      (MapView.updateVisibleTilesCache worldOneTile smallState).floorMax ∧
      (MapView.updateVisibleTilesCache worldOneTile smallState).floorMax ≤ Otc.MAX_Z ∧
      (MapView.updateVisibleTilesCache worldOneTile smallState).cachedFirstVisibleFloor ≤
        (MapView.updateVisibleTilesCache worldOneTile smallState).cachedLastVisibleFloor ∧
      (MapView.updateVisibleTilesCache worldOneTile smallState).cachedLastVisibleFloor ≤
        Otc.MAX_Z) :=
  ⟨by decide, (C1_visible_floor_invariants worldOneTile smallState).2.2 (by decide)⟩

/-! ## C2 -/

theorem touchFloor_tiles (acc : MapView.SweepAcc) (iz : Nat) :
    (MapView.touchFloor acc iz).tiles = acc.tiles := by
  unfold MapView.touchFloor
  split_ifs <;> rfl

theorem mem_pushTile {acc : MapView.SweepAcc} {iz : Nat} {tile : Tile} {f : Nat} {t : Tile}
    (h : MapView.inBuckets (MapView.pushTile acc iz tile).tiles f t) :
    MapView.inBuckets acc.tiles f t ∨ t = tile := by
  simp only [MapView.inBuckets, MapView.pushTile] at h ⊢
  by_cases hf : f = iz
  · subst hf
    simp only [if_pos rfl] at h
    split_ifs at h <;>
      first
        | (simp only [List.mem_append, List.mem_singleton] at h
           tauto)
        | tauto
  · simp only [if_neg hf] at h
    exact Or.inl h

theorem processCell_filter (g : WorldGrid) (cr : Bool) (s : MapViewState) (cam : Position)
    (first iz : Nat) (acc : MapView.SweepAcc) (c : Int × Int)
    (hQ : ∀ f t, MapView.inBuckets acc.tiles f t →
      ¬(t.isCompletelyCovered first = true ∧ t.hasLight = false)) :
    ∀ f t, MapView.inBuckets (MapView.processCell g cr s cam first iz acc c).tiles f t →
      ¬(t.isCompletelyCovered first = true ∧ t.hasLight = false) := by
  intro f t
  simp only [MapView.processCell]
  split
  · exact hQ f t
  · rename_i tile heq
    by_cases hdraw : ¬ tile.isDrawable = true
    · rw [if_pos hdraw]
      exact hQ f t
    · rw [if_neg hdraw]
      by_cases hocc : tile.isCompletelyCovered first = true ∧ ¬ tile.hasLight = true
      · rw [if_pos hocc]
        intro hmem
        apply hQ f t
        simp only [apply_ite MapView.SweepAcc.tiles, ite_self] at hmem
        exact hmem
      · rw [if_neg hocc, touchFloor_tiles]
        intro hmem
        rcases mem_pushTile hmem with hmem2 | rfl
        · apply hQ f t
          simp only [apply_ite MapView.SweepAcc.tiles, ite_self] at hmem2
          exact hmem2
        · intro hcd
          exact hocc ⟨hcd.1, by simp [hcd.2]⟩

theorem sweep_filter (g : WorldGrid) (cr : Bool) (s : MapViewState) (cam : Position)
    (first lastFloor : Nat) (acc : MapView.SweepAcc)
    (hQ : ∀ f t, MapView.inBuckets acc.tiles f t →
      ¬(t.isCompletelyCovered first = true ∧ t.hasLight = false)) :
    ∀ f t, MapView.inBuckets (MapView.sweep g cr s cam first lastFloor acc).tiles f t →
      ¬(t.isCompletelyCovered first = true ∧ t.hasLight = false) := by
  unfold MapView.sweep
  refine foldl_invariant
    (fun a : MapView.SweepAcc => ∀ f t, MapView.inBuckets a.tiles f t →
      ¬(t.isCompletelyCovered first = true ∧ t.hasLight = false)) _ _ _ hQ ?_
  intro b iz _ hb
  refine foldl_invariant
    (fun a : MapView.SweepAcc => ∀ f t, MapView.inBuckets a.tiles f t →
      ¬(t.isCompletelyCovered first = true ∧ t.hasLight = false)) _ _ _ hb ?_
  intro b2 c _ hb2
  exact processCell_filter g cr s cam first iz b2 c hb2

/-- C2: after a visibility cache rebuild (from a state whose buckets outside
`[floorMin, floorMax]` are empty, the maintained representation invariant),
every tile present in any grounds/borders/bottomTops bucket of any floor
fails the occlusion-culling test — equivalently, a tile that is completely
covered from the cached first visible floor and carries no light source never
appears in any bucket. -/
theorem C2_occlusion_culling (g : WorldGrid) (s : MapViewState)
    (hval : (MapView.getCameraPosition s).isValid = true)
    (hclean : ∀ f, f < s.floorMin ∨ s.floorMax < f →
      s.cachedVisibleTiles f = VisibleFloor.empty) :
    ∀ f t,
      MapView.inBuckets (MapView.updateVisibleTilesCache g s).cachedVisibleTiles f t →
      ¬(t.isCompletelyCovered
          (MapView.updateVisibleTilesCache g s).cachedFirstVisibleFloor = true ∧
        t.hasLight = false) := by
  intro f t
  simp only [MapView.updateVisibleTilesCache]
  rw [if_neg (by simp [hval])]
  simp only [MapView.rebuildBody]
  have hQ0 : ∀ f t,
      MapView.inBuckets
        (fun f => if s.floorMin ≤ f ∧ f ≤ max s.floorMin s.floorMax then VisibleFloor.empty
          else s.cachedVisibleTiles f) f t →
      ¬(t.isCompletelyCovered (MapView.calcFirstVisibleFloor g s) = true ∧
        t.hasLight = false) := by
    intro f2 t2 hmem
    exfalso
    by_cases hf : s.floorMin ≤ f2 ∧ f2 ≤ max s.floorMin s.floorMax
    · simp only [MapView.inBuckets, if_pos hf, VisibleFloor.empty] at hmem
      rcases hmem with h | h | h <;> exact absurd h (List.not_mem_nil t2)
    · have hcl := hclean f2 (by omega)
      simp only [MapView.inBuckets, if_neg hf, hcl, VisibleFloor.empty] at hmem
      rcases hmem with h | h | h <;> exact absurd h (List.not_mem_nil t2)
  exact sweep_filter g _ s (MapView.getCameraPosition s)
    (MapView.calcFirstVisibleFloor g s) _ _ hQ0 f t

/-- C2 witness: a drawable, completely covered, lightless tile present in the
world is absent from the rebuilt ground bucket of its floor. -/
theorem C2_occlusion_culling_witness :
    ¬ (coveredTile ∈
      ((MapView.updateVisibleTilesCache worldOneTile smallState).cachedVisibleTiles 7).grounds) :=
  fun hmem =>
    C2_occlusion_culling worldOneTile smallState (by decide) (fun _ _ => rfl) 7 coveredTile
      (Or.inl hmem) ⟨rfl, rfl⟩

/-! ## C10 -/

theorem pushTile_creatures (acc : MapView.SweepAcc) (iz : Nat) (tile : Tile) :
    (MapView.pushTile acc iz tile).visibleCreatures = acc.visibleCreatures := rfl

theorem touchFloor_creatures (acc : MapView.SweepAcc) (iz : Nat) :
    (MapView.touchFloor acc iz).visibleCreatures = acc.visibleCreatures := by
  unfold MapView.touchFloor
  split_ifs <;> rfl

/-- A sweep step never removes entries from the visible-creature list: the
old list is always a prefix of the new one. -/
theorem processCell_creatures_prefixOf (g : WorldGrid) (cr : Bool) (s : MapViewState)
    (cam : Position) (first iz : Nat) (acc : MapView.SweepAcc) (c : Int × Int) :
    PrefixOf acc.visibleCreatures
      (MapView.processCell g cr s cam first iz acc c).visibleCreatures := by
  simp only [MapView.processCell]
  split
  · exact prefixOf_refl _
  · rename_i tile heq
    by_cases hdraw : ¬ tile.isDrawable = true
    · rw [if_pos hdraw]
      exact prefixOf_refl _
    · rw [if_neg hdraw]
      by_cases hocc : tile.isCompletelyCovered first = true ∧ ¬ tile.hasLight = true
      · rw [if_pos hocc]
        split_ifs with hcre
        · exact ⟨_, rfl⟩
        · exact prefixOf_refl _
      · rw [if_neg hocc, touchFloor_creatures, pushTile_creatures]
        split_ifs with hcre
        · exact ⟨_, rfl⟩
        · exact prefixOf_refl _

theorem foldl_prefixOf {α : Type} (f : MapView.SweepAcc → α → MapView.SweepAcc)
    (hf : ∀ b a, PrefixOf b.visibleCreatures (f b a).visibleCreatures) :
    ∀ (l : List α) (b : MapView.SweepAcc),
      PrefixOf b.visibleCreatures (l.foldl f b).visibleCreatures := by
  intro l
  induction l with
  | nil => intro b; exact prefixOf_refl _
  | cons a l ih => intro b; exact prefixOf_trans (hf b a) (ih (f b a))

/-- If one step of a fold plants a segment in the creature list (for any
accumulator) and every step preserves the list as a prefix, the segment is in
the final list. -/
theorem foldl_collects {α : Type} (f : MapView.SweepAcc → α → MapView.SweepAcc)
    (hf : ∀ b a, PrefixOf b.visibleCreatures (f b a).visibleCreatures)
    (l : List α) (c : α) (hc : c ∈ l) (x : List Nat)
    (hx : ∀ b, SegmentOf x (f b c).visibleCreatures) :
    ∀ b, SegmentOf x (l.foldl f b).visibleCreatures := by
  intro b
  obtain ⟨l1, l2, rfl⟩ := List.append_of_mem hc
  rw [List.foldl_append, List.foldl_cons]
  exact segmentOf_of_prefixOf (hx (List.foldl f b l1)) (foldl_prefixOf f hf l2 _)

/-- Processing a cell holding a drawable, in-range tile with creatures while
the creature refresh is pending appends the tile's creatures in reverse
stacking order — whether or not the occlusion skip then suppresses the tile
from the buckets. -/
theorem processCell_collects (g : WorldGrid) (cr : Bool) (s : MapViewState)
    (cam : Position) (first iz : Nat) (c : Int × Int) (t : Tile)
    (hcr : cr = true)
    (htile : g.getTile (MapView.sweepTilePos cam s.virtualCenterOffset c iz) = some t)
    (hdraw : t.isDrawable = true)
    (hrange : MapView.isInRange s
      (MapView.sweepTilePos cam s.virtualCenterOffset c iz) = true)
    (hcre : t.getCreatures ≠ []) (acc : MapView.SweepAcc) :
    SegmentOf t.getCreatures.reverse
      (MapView.processCell g cr s cam first iz acc c).visibleCreatures := by
  simp only [MapView.processCell, htile]
  rw [if_neg (by simp [hdraw])]
  rw [if_pos (show cr = true ∧ MapView.isInRange s
      (MapView.sweepTilePos cam s.virtualCenterOffset c iz) = true ∧
      t.getCreatures ≠ [] from ⟨hcr, hrange, hcre⟩)]
  by_cases hocc : t.isCompletelyCovered first = true ∧ ¬ t.hasLight = true
  · rw [if_pos hocc]
    exact segmentOf_append _ _
  · rw [if_neg hocc, touchFloor_creatures, pushTile_creatures]
    exact segmentOf_append _ _

/-- C10: during a rebuild with a pending creature-cache refresh, the creatures
of every in-range drawable tile visited by the sweep are appended to the
visible-creature list in reverse per-tile stacking order, even when that tile
is completely covered from the first visible floor and has no light — in
which case the tile itself still never appears in any draw bucket (with the
same representation invariant on the prior buckets as in the occlusion
claim). -/
theorem C10_creatures_survive_occlusion (g : WorldGrid) (s : MapViewState)
    (c : Int × Int) (iz : Nat) (t : Tile)
    (hval : (MapView.getCameraPosition s).isValid = true)
    (hflag : s.mustUpdateVisibleCreaturesCache = true)
    (hclean : ∀ f, f < s.floorMin ∨ s.floorMax < f →
      s.cachedVisibleTiles f = VisibleFloor.empty)
    (hcell : c ∈ MapView.sweepCells s.drawDimension.w s.drawDimension.h)
    (hfloor : iz ∈ MapView.floorsDesc
      (if MapView.calcLastVisibleFloor g s < MapView.calcFirstVisibleFloor g s then
        MapView.calcFirstVisibleFloor g s
      else MapView.calcLastVisibleFloor g s)
      (MapView.calcFirstVisibleFloor g s))
    (htile : g.getTile (MapView.sweepTilePos (MapView.getCameraPosition s)
      s.virtualCenterOffset c iz) = some t)
    (hdraw : t.isDrawable = true)
    (hrange : MapView.isInRange s (MapView.sweepTilePos (MapView.getCameraPosition s)
      s.virtualCenterOffset c iz) = true)
    (hcre : t.getCreatures ≠ [])
    (hcov : t.isCompletelyCovered (MapView.calcFirstVisibleFloor g s) = true)
    (hdark : t.hasLight = false) :
    SegmentOf t.getCreatures.reverse
      (MapView.updateVisibleTilesCache g s).visibleCreatures ∧
    ∀ f, ¬ MapView.inBuckets
      (MapView.updateVisibleTilesCache g s).cachedVisibleTiles f t := by
  simp only [MapView.updateVisibleTilesCache]
  rw [if_neg (by simp [hval])]
  simp only [MapView.rebuildBody, hflag, Bool.true_or]
  constructor
  · simp only [MapView.sweep]
    exact foldl_collects _
      (fun b iz2 => foldl_prefixOf _
        (fun b2 c2 => processCell_creatures_prefixOf g true s
          (MapView.getCameraPosition s) (MapView.calcFirstVisibleFloor g s) iz2 b2 c2)
        _ b)
      _ iz hfloor _
      (fun b => foldl_collects _
        (fun b2 c2 => processCell_creatures_prefixOf g true s
          (MapView.getCameraPosition s) (MapView.calcFirstVisibleFloor g s) iz b2 c2)
        _ c hcell _
        (fun b2 => processCell_collects g true s (MapView.getCameraPosition s)
          (MapView.calcFirstVisibleFloor g s) iz c t rfl htile hdraw hrange hcre b2)
        b)
      _
  · intro f hmem
    have hQ0 : ∀ f2 t2,
        MapView.inBuckets
          (fun f2 => if s.floorMin ≤ f2 ∧ f2 ≤ max s.floorMin s.floorMax then
            VisibleFloor.empty
          else s.cachedVisibleTiles f2) f2 t2 →
        ¬(t2.isCompletelyCovered (MapView.calcFirstVisibleFloor g s) = true ∧
          t2.hasLight = false) := by
      intro f2 t2 hmem2
      exfalso
      by_cases hf : s.floorMin ≤ f2 ∧ f2 ≤ max s.floorMin s.floorMax
      · simp only [MapView.inBuckets, if_pos hf, VisibleFloor.empty] at hmem2
        rcases hmem2 with h | h | h <;> exact absurd h (List.not_mem_nil t2)
      · have hcl := hclean f2 (by omega)
        simp only [MapView.inBuckets, if_neg hf, hcl, VisibleFloor.empty] at hmem2
        rcases hmem2 with h | h | h <;> exact absurd h (List.not_mem_nil t2)
    exact sweep_filter g _ s (MapView.getCameraPosition s)
      (MapView.calcFirstVisibleFloor g s) _ _ hQ0 f t hmem ⟨hcov, hdark⟩

/-- C10 witness: the covered, lightless tile at `(6, 6, 7)` contributes its
creatures (in reverse stacking order) to the visible-creature list while
staying out of the ground bucket of its floor. -/
theorem C10_creatures_survive_occlusion_witness :
    SegmentOf (List.reverse [1, 2])
      (MapView.updateVisibleTilesCache worldOneTile smallState).visibleCreatures ∧
    ¬ MapView.inBuckets
      (MapView.updateVisibleTilesCache worldOneTile smallState).cachedVisibleTiles
      7 coveredTile := by
  have h := C10_creatures_survive_occlusion worldOneTile smallState (1, 1) 7 coveredTile
    (by decide) (by decide) (fun _ _ => rfl) (by decide) (by decide) rfl rfl (by decide)
    (by decide) rfl rfl
  exact ⟨h.1, h.2 7⟩
